import Mathlib

/-!
# DebugLogger: a stream-style debug logger over a serial port

Shallow embedding of `src/DebugLogger.h` and `src/DebugLogger.cpp`.

* The compile-time switches (`DEBUG`, `USBCON`, the platform macros) are fields of
  `BuildConfig`; every `#if` of the source is an `if` on that configuration.
* The logger object is a record holding `_numberBase`; objects live in a store addressed by
  references, so that `return *this` is the return of a reference.
* The serial port is an external collaborator.  It is embedded as the ordered record of the
  calls made on it (`SerialCall`), each with the arguments the logger passed.
* What a call transmits as text is the port's business; it is described separately by a
  `SinkModel`, and `specSink` is the rendering the specification's examples rely on.
-/

namespace DebugLog

/-! ## Constants and types of the header -/

/-- Modelled from the spec: the radix constant `DEC` of `Arduino.h`, which is not part of the
sources; decimal is radix 10. -/
def DEC : Int := 10

/-- Modelled from the spec: the radix constant `HEX` of `Arduino.h`, which is not part of the
sources; hexadecimal is radix 16. -/
def HEX : Int := 16

/-- Modelled from the spec: the radix constant `OCT` of `Arduino.h`, which is not part of the
sources; octal is radix 8. -/
def OCT : Int := 8

/-- Modelled from the spec: the radix constant `BIN` of `Arduino.h`, which is not part of the
sources; binary is radix 2. -/
def BIN : Int := 2

/-- The user setting `#define LEONARDO_IN_PROTEUS 0` of the header: `SERIAL_PORT` is `Serial`. -/
def LEONARDO_IN_PROTEUS : Bool := false

/-- The preprocessor symbols the sources test. `DEBUG` is the debug switch, `USBCON` is defined
on USB-backed boards, `ESP` stands for `defined(ESP8266) || defined(ESP32)` and `MCUDUDE` for
the disjunction of the five `MCUDUDE_*` core symbols. -/
structure BuildConfig where
  DEBUG : Bool
  USBCON : Bool
  ESP : Bool
  MCUDUDE : Bool
  deriving DecidableEq, Repr

/-- The header's `#ifndef DEBUG / #define DEBUG 0`: a build that defines nothing. -/
def defaultBuild : BuildConfig := ⟨false, false, false, false⟩

/-- A build with `-DDEBUG=1` and nothing else defined. -/
def debugBuild : BuildConfig := ⟨true, false, false, false⟩

/-- A build with `-DDEBUG=1` for a USB-backed board. -/
def debugUsbBuild : BuildConfig := ⟨true, true, false, false⟩

/-- Header lines 42-43: `PRINTF_HAS_ESP` is 1 exactly on the ESP targets. -/
def PRINTF_HAS_ESP (cfg : BuildConfig) : Bool := cfg.ESP

/-- Header lines 44-45: the `#elif` branch, taken on the MCUdude cores when not on ESP. -/
def PRINTF_HAS_MCUDUDE (cfg : BuildConfig) : Bool := !cfg.ESP && cfg.MCUDUDE

/-- The manipulators, `enum class LoggerManipulator`. -/
inductive LoggerManipulator where
  | _endl
  | _hex
  | _dec
  | _oct
  | _bin
  deriving DecidableEq, Repr

/-- Global manipulator object `endl`. -/
def endl : LoggerManipulator := LoggerManipulator._endl

/-- Global manipulator object `hex`. -/
def hex : LoggerManipulator := LoggerManipulator._hex

/-- Global manipulator object `dec`. -/
def dec : LoggerManipulator := LoggerManipulator._dec

/-- Global manipulator object `oct`. -/
def oct : LoggerManipulator := LoggerManipulator._oct

/-- Global manipulator object `bin`. -/
def bin : LoggerManipulator := LoggerManipulator._bin

/-- A `double` argument, carried as the decimal quantity `mantissa / 10 ^ exponent`.
The logger hands such a value to the port without inspecting it. -/
structure Double where
  mantissa : Int
  exponent : Nat
  deriving DecidableEq, Repr

/-- One argument of the variadic `printf`. -/
inductive FormatArg where
  | int (value : Int)
  | dbl (value : Double)
  | chr (value : Char)
  | str (value : String)
  deriving DecidableEq, Repr

/-- A format string, in RAM (`const char*`) or in flash (`const __FlashStringHelper*`). -/
inductive FormatString where
  | ram (text : String)
  | flash (text : String)
  deriving DecidableEq, Repr

/-! ## The serial port -/

/-- A call made on `SERIAL_PORT`, with its arguments. One constructor per member (and per
overload of `print`) that the sources use. -/
inductive SerialCall where
  | begin (speed : Int)
  | operatorBool
  | print_constCharPtr (value : String)
  | print_char (value : Char)
  | print_int (value : Int) (base : Int)
  | print_unsignedInt (value : Int) (base : Int)
  | print_long (value : Int) (base : Int)
  | print_unsignedLong (value : Int) (base : Int)
  | print_double (value : Double)
  | print_String (value : String)
  | print_FlashStringHelper (value : String)
  | println
  | printf (format : FormatString) (args : List FormatArg)
  | printf_P (format : String) (args : List FormatArg)
  deriving DecidableEq, Repr

/-- The port as the logger sees it: the calls received so far, oldest first, and how the
connection test `operator bool` will answer. `pollsUntilReady = some k` means that the next
`k` tests answer false and the one after answers true; `none` means the connection never
becomes ready. -/
structure HardwareSerial where
  calls : List SerialCall
  pollsUntilReady : Option Nat
  deriving DecidableEq, Repr

/-- Append a call to the record of the port. -/
def HardwareSerial.record (p : HardwareSerial) (c : SerialCall) : HardwareSerial :=
  { p with calls := p.calls ++ [c] }

/-- The connection test `(bool) SERIAL_PORT`: the answer, and the port afterwards. -/
def HardwareSerial.operatorBool (p : HardwareSerial) : Bool × HardwareSerial :=
  match p.pollsUntilReady with
  | none => (false, p.record SerialCall.operatorBool)
  | some 0 => (true, p.record SerialCall.operatorBool)
  | some (k + 1) =>
    (false, { calls := p.calls ++ [SerialCall.operatorBool], pollsUntilReady := some k })

/-! ## The logger -/

/-- The class `DebugLogger`: its only data member is `_numberBase`. -/
structure DebugLogger where
  _numberBase : Int
  deriving DecidableEq, Repr

/-- A freshly constructed logger: the default member initialiser `_numberBase = DEC`. -/
def DebugLogger.new : DebugLogger := ⟨DEC⟩

/-- A reference to a logger object. -/
abbrev Ref := Nat

/-- The global instance `Debug`. -/
def Debug : Ref := 0

/-- The program state: the logger objects, by reference, and the serial port. -/
structure World where
  objects : Ref → DebugLogger
  SERIAL_PORT : HardwareSerial

/-- The state at program start: every logger freshly constructed, nothing sent yet. -/
def World.start (pollsUntilReady : Option Nat) : World :=
  { objects := fun _ => DebugLogger.new, SERIAL_PORT := ⟨[], pollsUntilReady⟩ }

/-- Assignment to the object behind a reference. -/
def World.store (w : World) (r : Ref) (l : DebugLogger) : World :=
  { w with objects := fun q => if q = r then l else w.objects q }

/-- A call on `SERIAL_PORT`. -/
def World.send (w : World) (c : SerialCall) : World :=
  { w with SERIAL_PORT := w.SERIAL_PORT.record c }

/-- The number base of the logger behind `this`. -/
def World.numberBase (w : World) (this : Ref) : Int := (w.objects this)._numberBase

/-- The loop `while (!SERIAL_PORT) { ; }`. It has no bound in the source; `fuel` bounds the
number of tests, and `none` is a loop that has not ended within the fuel. -/
def waitForPort : Nat → HardwareSerial → Option HardwareSerial
  | 0, _ => none
  | fuel + 1, p =>
    if !(p.operatorBool).1 then waitForPort fuel (p.operatorBool).2
    else some (p.operatorBool).2

/-- `void DebugLogger::begin(long speed)`. -/
def DebugLogger.begin (cfg : BuildConfig) (fuel : Nat) (_this : Ref) (speed : Int)
    (w : World) : Option World :=
  if cfg.DEBUG then
    if cfg.USBCON then
      (waitForPort fuel (w.send (SerialCall.begin speed)).SERIAL_PORT).map
        (fun p => { w with SERIAL_PORT := p })
    else some (w.send (SerialCall.begin speed))
  else some w

/-- `DebugLogger& operator<<(const char* value)`. -/
def DebugLogger.operatorShl_constCharPtr (cfg : BuildConfig) (this : Ref) (value : String)
    (w : World) : Ref × World :=
  if cfg.DEBUG then (this, w.send (SerialCall.print_constCharPtr value)) else (this, w)

/-- `DebugLogger& operator<<(char value)`. -/
def DebugLogger.operatorShl_char (cfg : BuildConfig) (this : Ref) (value : Char)
    (w : World) : Ref × World :=
  if cfg.DEBUG then (this, w.send (SerialCall.print_char value)) else (this, w)

/-- `DebugLogger& operator<<(int value)`. -/
def DebugLogger.operatorShl_int (cfg : BuildConfig) (this : Ref) (value : Int)
    (w : World) : Ref × World :=
  if cfg.DEBUG then
    (this, (w.send (SerialCall.print_int value (w.objects this)._numberBase)).store this
      { (w.objects this) with _numberBase := DEC })
  else (this, w)

/-- `DebugLogger& operator<<(unsigned int value)`. -/
def DebugLogger.operatorShl_unsignedInt (cfg : BuildConfig) (this : Ref) (value : Int)
    (w : World) : Ref × World :=
  if cfg.DEBUG then
    (this, (w.send (SerialCall.print_unsignedInt value (w.objects this)._numberBase)).store this
      { (w.objects this) with _numberBase := DEC })
  else (this, w)

/-- `DebugLogger& operator<<(long value)`. -/
def DebugLogger.operatorShl_long (cfg : BuildConfig) (this : Ref) (value : Int)
    (w : World) : Ref × World :=
  if cfg.DEBUG then
    (this, (w.send (SerialCall.print_long value (w.objects this)._numberBase)).store this
      { (w.objects this) with _numberBase := DEC })
  else (this, w)

/-- `DebugLogger& operator<<(unsigned long value)`. -/
def DebugLogger.operatorShl_unsignedLong (cfg : BuildConfig) (this : Ref) (value : Int)
    (w : World) : Ref × World :=
  if cfg.DEBUG then
    (this, (w.send (SerialCall.print_unsignedLong value (w.objects this)._numberBase)).store this
      { (w.objects this) with _numberBase := DEC })
  else (this, w)

/-- `DebugLogger& operator<<(double value)`. -/
def DebugLogger.operatorShl_double (cfg : BuildConfig) (this : Ref) (value : Double)
    (w : World) : Ref × World :=
  if cfg.DEBUG then (this, w.send (SerialCall.print_double value)) else (this, w)

/-- `DebugLogger& operator<<(const String& value)`. -/
def DebugLogger.operatorShl_String (cfg : BuildConfig) (this : Ref) (value : String)
    (w : World) : Ref × World :=
  if cfg.DEBUG then (this, w.send (SerialCall.print_String value)) else (this, w)

/-- `DebugLogger& operator<<(const __FlashStringHelper* value)`. -/
def DebugLogger.operatorShl_FlashStringHelper (cfg : BuildConfig) (this : Ref)
    (value : String) (w : World) : Ref × World :=
  if cfg.DEBUG then (this, w.send (SerialCall.print_FlashStringHelper value)) else (this, w)

/-- `DebugLogger& operator<<(LoggerManipulator manip)`. -/
def DebugLogger.operatorShl_LoggerManipulator (cfg : BuildConfig) (this : Ref)
    (manip : LoggerManipulator) (w : World) : Ref × World :=
  if cfg.DEBUG then
    match manip with
    | LoggerManipulator._endl => (this, w.send SerialCall.println)
    | LoggerManipulator._hex =>
      (this, w.store this { (w.objects this) with _numberBase := HEX })
    | LoggerManipulator._dec =>
      (this, w.store this { (w.objects this) with _numberBase := DEC })
    | LoggerManipulator._oct =>
      (this, w.store this { (w.objects this) with _numberBase := OCT })
    | LoggerManipulator._bin =>
      (this, w.store this { (w.objects this) with _numberBase := BIN })
  else (this, w)

/-- The member template `printf(const char* format, Args... args)`, in its three variants. -/
def DebugLogger.printf (cfg : BuildConfig) (_this : Ref) (format : String)
    (args : List FormatArg) (w : World) : World :=
  if PRINTF_HAS_ESP cfg then
    if cfg.DEBUG then w.send (SerialCall.printf (FormatString.ram format) args) else w
  else if PRINTF_HAS_MCUDUDE cfg then
    if cfg.DEBUG then w.send (SerialCall.printf (FormatString.ram format) args) else w
  else w

/-- The member template `printf(const __FlashStringHelper* format, Args... args)`, in its
three variants. -/
def DebugLogger.printf_FlashStringHelper (cfg : BuildConfig) (_this : Ref) (format : String)
    (args : List FormatArg) (w : World) : World :=
  if PRINTF_HAS_ESP cfg then
    if cfg.DEBUG then w.send (SerialCall.printf_P format args) else w
  else if PRINTF_HAS_MCUDUDE cfg then
    if cfg.DEBUG then w.send (SerialCall.printf (FormatString.flash format) args) else w
  else w

/-! ## Sequences of calls -/

/-- The argument of one insertion `logger << value`: overload resolution picks the operator
from the C++ type of the argument. Integers of every width are carried as mathematical
integers: the logger does no arithmetic on them. -/
inductive Value where
  | constCharPtr (value : String)
  | char (value : Char)
  | int (value : Int)
  | unsignedInt (value : Int)
  | long (value : Int)
  | unsignedLong (value : Int)
  | double (value : Double)
  | String (value : String)
  | FlashStringHelper (value : String)
  | manip (m : LoggerManipulator)
  deriving DecidableEq, Repr

/-- One insertion `this << v`: the overload selected by the type of `v`. The result is the
returned reference and the state after the call. -/
def write (cfg : BuildConfig) (this : Ref) (v : Value) (w : World) : Ref × World :=
  match v with
  | Value.constCharPtr s => DebugLogger.operatorShl_constCharPtr cfg this s w
  | Value.char c => DebugLogger.operatorShl_char cfg this c w
  | Value.int n => DebugLogger.operatorShl_int cfg this n w
  | Value.unsignedInt n => DebugLogger.operatorShl_unsignedInt cfg this n w
  | Value.long n => DebugLogger.operatorShl_long cfg this n w
  | Value.unsignedLong n => DebugLogger.operatorShl_unsignedLong cfg this n w
  | Value.double d => DebugLogger.operatorShl_double cfg this d w
  | Value.String s => DebugLogger.operatorShl_String cfg this s w
  | Value.FlashStringHelper s => DebugLogger.operatorShl_FlashStringHelper cfg this s w
  | Value.manip m => DebugLogger.operatorShl_LoggerManipulator cfg this m w

/-- The chained expression `this << v1 << v2 << ...`: each insertion is applied to the
reference returned by the one before. -/
def chain (cfg : BuildConfig) : Ref → List Value → World → Ref × World
  | this, [], w => (this, w)
  | this, v :: vs, w => chain cfg (write cfg this v w).1 vs (write cfg this v w).2

/-- The statements `this << v1; this << v2; ...`: each insertion is applied to `this`, the
returned reference is dropped. -/
def sequential (cfg : BuildConfig) (this : Ref) : List Value → World → World
  | [], w => w
  | v :: vs, w => sequential cfg this vs (write cfg this v w).2

/-- An insertion that is neither an integer nor a base manipulator: text, a character, a
floating-point value, a `String`, a flash string, or the manipulator `endl`. -/
def Value.isPlain : Value → Bool
  | Value.constCharPtr _ => true
  | Value.char _ => true
  | Value.double _ => true
  | Value.String _ => true
  | Value.FlashStringHelper _ => true
  | Value.manip LoggerManipulator._endl => true
  | _ => false

/-- The constant a base manipulator stands for, as the `switch` assigns it; `endl` is not a
base manipulator. -/
def LoggerManipulator.radix : LoggerManipulator → Option Int
  | LoggerManipulator._endl => none
  | LoggerManipulator._hex => some HEX
  | LoggerManipulator._dec => some DEC
  | LoggerManipulator._oct => some OCT
  | LoggerManipulator._bin => some BIN

/-- The call an integer insertion makes on the port when it is printed in base `base`:
the `print` overload of its own type. Not defined for the other insertions. -/
def Value.integerCall (base : Int) : Value → Option SerialCall
  | Value.int n => some (SerialCall.print_int n base)
  | Value.unsignedInt n => some (SerialCall.print_unsignedInt n base)
  | Value.long n => some (SerialCall.print_long n base)
  | Value.unsignedLong n => some (SerialCall.print_unsignedLong n base)
  | _ => none

/-- The four integer overloads of `operator<<`: `int`, `unsigned int`, `long` and
`unsigned long`. -/
inductive IntegerOverload where
  | int
  | unsignedInt
  | long
  | unsignedLong
  deriving DecidableEq, Repr

/-- The insertion of the integer `n` through the given overload. -/
def IntegerOverload.insertion : IntegerOverload → Int → Value
  | IntegerOverload.int, n => Value.int n
  | IntegerOverload.unsignedInt, n => Value.unsignedInt n
  | IntegerOverload.long, n => Value.long n
  | IntegerOverload.unsignedLong, n => Value.unsignedLong n

/-- The `print` call of the same integer type, for the value `n` and the base `base`. -/
def IntegerOverload.call : IntegerOverload → Int → Int → SerialCall
  | IntegerOverload.int, n, base => SerialCall.print_int n base
  | IntegerOverload.unsignedInt, n, base => SerialCall.print_unsignedInt n base
  | IntegerOverload.long, n, base => SerialCall.print_long n base
  | IntegerOverload.unsignedLong, n, base => SerialCall.print_unsignedLong n base

/-- A public operation of the logger. -/
inductive Op where
  | begin (speed : Int)
  | write (v : Value)
  | printf (format : String) (args : List FormatArg)
  | printf_FlashStringHelper (format : String) (args : List FormatArg)
  deriving DecidableEq, Repr

/-- One operation on the logger `this`; `none` when `begin` does not return within `fuel`. -/
def exec (cfg : BuildConfig) (fuel : Nat) (this : Ref) (op : Op) (w : World) : Option World :=
  match op with
  | Op.begin speed => DebugLogger.begin cfg fuel this speed w
  | Op.write v => some (write cfg this v w).2
  | Op.printf format args => some (DebugLogger.printf cfg this format args w)
  | Op.printf_FlashStringHelper format args =>
    some (DebugLogger.printf_FlashStringHelper cfg this format args w)

/-- An operation other than an integer insertion and a base manipulator. -/
def Op.isPlain : Op → Bool
  | Op.write v => v.isPlain
  | _ => true

/-- A sequence of operations on the logger `this`, one after the other. -/
def run (cfg : BuildConfig) (fuel : Nat) (this : Ref) : List Op → World → Option World
  | [], w => some w
  | op :: ops, w => (exec cfg fuel this op w).bind (run cfg fuel this ops)

/-! ## What the port transmits -/

/-- The renderings of the port: how an integer of each kind is written in a base, how a
`double` is written, what `println` transmits and what the formatted writes transmit. -/
structure SinkModel where
  printInt : Int → Int → String
  printUnsignedInt : Int → Int → String
  printLong : Int → Int → String
  printUnsignedLong : Int → Int → String
  printDouble : Double → String
  lineTerminator : String
  formatted : FormatString → List FormatArg → String

/-- The rendering the port applies to an integer of the given type. -/
def SinkModel.printInteger (s : SinkModel) : IntegerOverload → Int → Int → String
  | IntegerOverload.int => s.printInt
  | IntegerOverload.unsignedInt => s.printUnsignedInt
  | IntegerOverload.long => s.printLong
  | IntegerOverload.unsignedLong => s.printUnsignedLong

/-- The text one call puts on the line. -/
def SerialCall.text (s : SinkModel) : SerialCall → String
  | SerialCall.begin _ => ""
  | SerialCall.operatorBool => ""
  | SerialCall.print_constCharPtr v => v
  | SerialCall.print_char c => String.singleton c
  | SerialCall.print_int n b => s.printInt n b
  | SerialCall.print_unsignedInt n b => s.printUnsignedInt n b
  | SerialCall.print_long n b => s.printLong n b
  | SerialCall.print_unsignedLong n b => s.printUnsignedLong n b
  | SerialCall.print_double d => s.printDouble d
  | SerialCall.print_String v => v
  | SerialCall.print_FlashStringHelper v => v
  | SerialCall.println => s.lineTerminator
  | SerialCall.printf f args => s.formatted f args
  | SerialCall.printf_P f args => s.formatted (FormatString.flash f) args

/-- The text a sequence of calls puts on the line. -/
def transmitted (s : SinkModel) : List SerialCall → String
  | [] => ""
  | c :: cs => c.text s ++ transmitted s cs

/-- Modelled from the spec: the rendering of an integer by the serial port's `print`, which is
not part of the sources. The spec calls it the conventional digit representation in the base,
with `255` in hexadecimal written `ff`: a minus sign for a negative value, then the digits of
the magnitude, most significant first, the digits above nine being `a`, `b`, ... -/
def conventionalDigits (n : Int) (base : Int) : String :=
  (if n < 0 then "-" else "") ++ String.mk (Nat.toDigits base.toNat n.natAbs)

/-- Modelled from the spec: the rendering of a floating-point value by the serial port's
`print`, which is not part of the sources. The spec has it decimal, `3.14` written `3.14`
and `3.5` written `3.50`: the value rounded to two fractional digits. -/
def decimalTwoPlaces (d : Double) : String :=
  (if d.mantissa < 0 then "-" else "") ++
    toString ((200 * d.mantissa.natAbs + 10 ^ d.exponent) / (2 * 10 ^ d.exponent) / 100) ++ "." ++
    (if (200 * d.mantissa.natAbs + 10 ^ d.exponent) / (2 * 10 ^ d.exponent) % 100 < 10
      then "0" else "") ++
    toString ((200 * d.mantissa.natAbs + 10 ^ d.exponent) / (2 * 10 ^ d.exponent) % 100)

/-- Modelled from the spec: the serial sink as the spec's examples describe it, which is not
part of the sources: integers in their conventional digit representation, floating-point
values in decimal, the line terminator written `\n`. The spec does not describe the text of
a formatted write; it is left empty here. -/
def specSink : SinkModel :=
  { printInt := conventionalDigits
    printUnsignedInt := conventionalDigits
    printLong := conventionalDigits
    printUnsignedLong := conventionalDigits
    printDouble := decimalTwoPlaces
    lineTerminator := "\n"
    formatted := fun _ _ => "" }


/-! ## Auxiliary facts -/

theorem transmitted_append (s : SinkModel) (xs ys : List SerialCall) :
    transmitted s (xs ++ ys) = transmitted s xs ++ transmitted s ys := by
  induction xs with
  | nil => simp [transmitted]
  | cons c cs ih => simp [transmitted, ih, String.append_assoc]

theorem transmitted_single (s : SinkModel) (c : SerialCall) :
    transmitted s [c] = c.text s := by
  simp [transmitted]

theorem write_returns_this (cfg : BuildConfig) (this : Ref) (v : Value) (w : World) :
    (write cfg this v w).1 = this := by
  cases v with
  | manip m =>
    cases m <;>
      (simp only [write, DebugLogger.operatorShl_LoggerManipulator]; split <;> rfl)
  | _ =>
    simp only [write, DebugLogger.operatorShl_constCharPtr, DebugLogger.operatorShl_char,
      DebugLogger.operatorShl_int, DebugLogger.operatorShl_unsignedInt,
      DebugLogger.operatorShl_long, DebugLogger.operatorShl_unsignedLong,
      DebugLogger.operatorShl_double, DebugLogger.operatorShl_String,
      DebugLogger.operatorShl_FlashStringHelper]
    split <;> rfl

theorem write_disabled (cfg : BuildConfig) (hd : cfg.DEBUG = false) (this : Ref) (v : Value)
    (w : World) : write cfg this v w = (this, w) := by
  cases v with
  | manip m =>
    cases m <;> simp [write, DebugLogger.operatorShl_LoggerManipulator, hd]
  | _ =>
    simp [write, DebugLogger.operatorShl_constCharPtr, DebugLogger.operatorShl_char,
      DebugLogger.operatorShl_int, DebugLogger.operatorShl_unsignedInt,
      DebugLogger.operatorShl_long, DebugLogger.operatorShl_unsignedLong,
      DebugLogger.operatorShl_double, DebugLogger.operatorShl_String,
      DebugLogger.operatorShl_FlashStringHelper, hd]

theorem write_plain_objects (cfg : BuildConfig) (this : Ref) (v : Value) (w : World)
    (hv : v.isPlain = true) : (write cfg this v w).2.objects = w.objects := by
  cases v with
  | manip m =>
    cases m <;> simp [Value.isPlain] at hv
    simp only [write, DebugLogger.operatorShl_LoggerManipulator]
    split <;> rfl
  | int n => simp [Value.isPlain] at hv
  | unsignedInt n => simp [Value.isPlain] at hv
  | long n => simp [Value.isPlain] at hv
  | unsignedLong n => simp [Value.isPlain] at hv
  | _ =>
    simp only [write, DebugLogger.operatorShl_constCharPtr, DebugLogger.operatorShl_char,
      DebugLogger.operatorShl_double, DebugLogger.operatorShl_String,
      DebugLogger.operatorShl_FlashStringHelper]
    split <;> rfl

theorem sequential_append (cfg : BuildConfig) (this : Ref) (xs ys : List Value) (w : World) :
    sequential cfg this (xs ++ ys) w = sequential cfg this ys (sequential cfg this xs w) := by
  induction xs generalizing w with
  | nil => rfl
  | cons v vs ih => simp [sequential, ih]

theorem sequential_plain_objects (cfg : BuildConfig) (this : Ref) (vs : List Value)
    (w : World) (hvs : ∀ v ∈ vs, v.isPlain = true) :
    (sequential cfg this vs w).objects = w.objects := by
  induction vs generalizing w with
  | nil => rfl
  | cons v vs ih =>
    have h1 : v.isPlain = true := hvs v (List.mem_cons_self v vs)
    have h2 : ∀ x ∈ vs, x.isPlain = true := fun x hx => hvs x (List.mem_cons_of_mem v hx)
    simp only [sequential]
    rw [ih _ h2, write_plain_objects cfg this v w h1]

theorem manip_base_sets (cfg : BuildConfig) (hd : cfg.DEBUG = true) (this : Ref)
    (b : LoggerManipulator) (r : Int) (hr : b.radix = some r) (w : World) :
    (write cfg this (Value.manip b) w).2.numberBase this = r ∧
      (write cfg this (Value.manip b) w).2.SERIAL_PORT = w.SERIAL_PORT := by
  cases b <;>
    simp_all [write, DebugLogger.operatorShl_LoggerManipulator, LoggerManipulator.radix,
      World.numberBase, World.store]

theorem waitForPort_ready (k : Nat) :
    ∀ (fuel : Nat) (p : HardwareSerial), p.pollsUntilReady = some k → k < fuel →
      (waitForPort fuel p).isSome = true := by
  induction k with
  | zero =>
    intro fuel p hp hk
    cases fuel with
    | zero => omega
    | succ f => simp [waitForPort, HardwareSerial.operatorBool, hp]
  | succ k ih =>
    intro fuel p hp hk
    cases fuel with
    | zero => omega
    | succ f =>
      simp only [waitForPort, HardwareSerial.operatorBool, hp]
      simp only [Bool.not_false, if_true]
      exact ih f _ rfl (by omega)

/-! ## The claims -/

/-- C1: with debug output enabled, for every logger state and every value written through
any of the four integer overloads, the write passes the value to the port together with the
number base in force before the write, and afterwards the number base is decimal. -/
theorem integer_write_uses_base_then_resets (cfg : BuildConfig) (hd : cfg.DEBUG = true)
    (this : Ref) (w : World) (n : Int) :
    ((DebugLogger.operatorShl_int cfg this n w).2.SERIAL_PORT.calls
        = w.SERIAL_PORT.calls ++ [SerialCall.print_int n (w.numberBase this)] ∧
      (DebugLogger.operatorShl_int cfg this n w).2.numberBase this = DEC) ∧
    ((DebugLogger.operatorShl_unsignedInt cfg this n w).2.SERIAL_PORT.calls
        = w.SERIAL_PORT.calls ++ [SerialCall.print_unsignedInt n (w.numberBase this)] ∧
      (DebugLogger.operatorShl_unsignedInt cfg this n w).2.numberBase this = DEC) ∧
    ((DebugLogger.operatorShl_long cfg this n w).2.SERIAL_PORT.calls
        = w.SERIAL_PORT.calls ++ [SerialCall.print_long n (w.numberBase this)] ∧
      (DebugLogger.operatorShl_long cfg this n w).2.numberBase this = DEC) ∧
    ((DebugLogger.operatorShl_unsignedLong cfg this n w).2.SERIAL_PORT.calls
        = w.SERIAL_PORT.calls ++ [SerialCall.print_unsignedLong n (w.numberBase this)] ∧
      (DebugLogger.operatorShl_unsignedLong cfg this n w).2.numberBase this = DEC) ∧
    DEC = 10 := by
  simp [DebugLogger.operatorShl_int, DebugLogger.operatorShl_unsignedInt,
    DebugLogger.operatorShl_long, DebugLogger.operatorShl_unsignedLong, hd, World.send,
    World.store, World.numberBase, HardwareSerial.record, DEC]

/-- Witness of C1: a pending hexadecimal base, then `Debug << 255` in a debug build. -/
theorem integer_write_uses_base_then_resets_witness :
    debugBuild.DEBUG = true ∧
    (DebugLogger.operatorShl_int debugBuild Debug 255
        ((World.start none).store Debug ⟨HEX⟩)).2.SERIAL_PORT.calls
      = [SerialCall.print_int 255 16] ∧
    (DebugLogger.operatorShl_int debugBuild Debug 255
        ((World.start none).store Debug ⟨HEX⟩)).2.numberBase Debug = 10 :=
  ⟨rfl,
    (integer_write_uses_base_then_resets debugBuild rfl Debug
      ((World.start none).store Debug ⟨HEX⟩) 255).1.1,
    (integer_write_uses_base_then_resets debugBuild rfl Debug
      ((World.start none).store Debug ⟨HEX⟩) 255).1.2⟩


/-- C2: with debug output enabled, for every base manipulator and all integers `n`, `m`,
each written through any of the four integer overloads, the sequence manipulator, `n`, `m`
has `n` printed in the manipulator's base and then `m` in decimal, whatever the renderings
of the port are; with the conventional digit representation that is the digits of `n` in
that base followed by the decimal digits of `m`, and `hex`, 255, 255 gives `ff` followed
by `255`. -/
theorem base_manip_then_two_integers (s : SinkModel) (cfg : BuildConfig)
    (hd : cfg.DEBUG = true) (this : Ref) (w : World) (b : LoggerManipulator) (r : Int)
    (hr : b.radix = some r) (k1 k2 : IntegerOverload) (n m : Int) :
    (sequential cfg this [Value.manip b, k1.insertion n, k2.insertion m] w).SERIAL_PORT.calls
      = w.SERIAL_PORT.calls ++ [k1.call n r, k2.call m DEC] ∧
    transmitted s
        (sequential cfg this [Value.manip b, k1.insertion n, k2.insertion m]
          w).SERIAL_PORT.calls
      = transmitted s w.SERIAL_PORT.calls ++ s.printInteger k1 n r
          ++ s.printInteger k2 m DEC ∧
    transmitted specSink
        (sequential cfg this [Value.manip b, k1.insertion n, k2.insertion m]
          w).SERIAL_PORT.calls
      = transmitted specSink w.SERIAL_PORT.calls ++ conventionalDigits n r
          ++ conventionalDigits m 10 ∧
    (sequential cfg this [Value.manip hex, k1.insertion 255, k2.insertion 255]
        w).SERIAL_PORT.calls.map (SerialCall.text specSink)
      = w.SERIAL_PORT.calls.map (SerialCall.text specSink) ++ ["ff", "255"] := by
  have hcalls : (sequential cfg this [Value.manip b, k1.insertion n, k2.insertion m]
      w).SERIAL_PORT.calls
        = w.SERIAL_PORT.calls ++ [k1.call n r, k2.call m DEC] := by
    cases b <;> cases k1 <;> cases k2 <;>
      simp_all [sequential, write, DebugLogger.operatorShl_LoggerManipulator,
        DebugLogger.operatorShl_int, DebugLogger.operatorShl_unsignedInt,
        DebugLogger.operatorShl_long, DebugLogger.operatorShl_unsignedLong,
        IntegerOverload.insertion, IntegerOverload.call, LoggerManipulator.radix,
        World.send, World.store, HardwareSerial.record]
  have hhex : (sequential cfg this [Value.manip hex, k1.insertion 255, k2.insertion 255]
      w).SERIAL_PORT.calls
        = w.SERIAL_PORT.calls ++ [k1.call 255 16, k2.call 255 10] := by
    cases k1 <;> cases k2 <;>
      simp [sequential, write, DebugLogger.operatorShl_LoggerManipulator,
        DebugLogger.operatorShl_int, DebugLogger.operatorShl_unsignedInt,
        DebugLogger.operatorShl_long, DebugLogger.operatorShl_unsignedLong,
        IntegerOverload.insertion, IntegerOverload.call, hex, HEX, DEC, World.send,
        World.store, HardwareSerial.record, hd]
  refine ⟨hcalls, ?_, ?_, ?_⟩
  · rw [hcalls, transmitted_append]
    cases k1 <;> cases k2 <;>
      simp [transmitted, SerialCall.text, IntegerOverload.call, SinkModel.printInteger,
        String.append_assoc]
  · rw [hcalls, transmitted_append]
    cases k1 <;> cases k2 <;>
      simp [transmitted, SerialCall.text, IntegerOverload.call, specSink, DEC,
        String.append_assoc]
  · rw [hhex, List.map_append]
    cases k1 <;> cases k2 <;> congr 1

/-- Witness of C2: `Debug << hex << 70000L << 255u` from the start state in a debug build:
the first integer goes through the `long` overload, the second through `unsigned int`. -/
theorem base_manip_then_two_integers_witness :
    debugBuild.DEBUG = true ∧ hex.radix = some 16 ∧
    (sequential debugBuild Debug
        [Value.manip hex, Value.long 70000, Value.unsignedInt 255]
        (World.start none)).SERIAL_PORT.calls
      = [SerialCall.print_long 70000 16, SerialCall.print_unsignedInt 255 10] ∧
    transmitted specSink
        (sequential debugBuild Debug
          [Value.manip hex, Value.long 70000, Value.unsignedInt 255]
          (World.start none)).SERIAL_PORT.calls
      = "" ++ "11170" ++ "255" :=
  ⟨rfl, rfl,
    (base_manip_then_two_integers specSink debugBuild rfl Debug (World.start none) hex 16 rfl
      IntegerOverload.long IntegerOverload.unsignedInt 70000 255).1,
    (base_manip_then_two_integers specSink debugBuild rfl Debug (World.start none) hex 16 rfl
      IntegerOverload.long IntegerOverload.unsignedInt 70000 255).2.2.1⟩

/-- C3: with the debug switch off (the default), every finite sequence of operations
(`begin`, insertions of any type, manipulators, formatted writes) returns with the state it
started from: no call reaches the port, the port is not opened, and every number base is as
before. A chain of insertions likewise returns the logger and the unchanged state. -/
theorem disabled_is_no_op (cfg : BuildConfig) (hd : cfg.DEBUG = false) (fuel : Nat)
    (this : Ref) (ops : List Op) (vs : List Value) (w : World) :
    run cfg fuel this ops w = some w ∧ chain cfg this vs w = (this, w) ∧
      defaultBuild.DEBUG = false := by
  refine ⟨?_, ?_, rfl⟩
  · induction ops with
    | nil => rfl
    | cons op ops ih =>
      have h1 : exec cfg fuel this op w = some w := by
        cases op with
        | begin speed => simp [exec, DebugLogger.begin, hd]
        | write v => simp [exec, write_disabled cfg hd]
        | printf f a => simp [exec, DebugLogger.printf, hd]
        | printf_FlashStringHelper f a =>
          simp [exec, DebugLogger.printf_FlashStringHelper, hd]
      simp [run, h1, ih]
  · induction vs with
    | nil => rfl
    | cons v vs ih => simp [chain, write_disabled cfg hd, ih]

/-- Witness of C3: the default build, `begin`, a text, `hex`, an integer, `endl` and a
formatted write on a port that never becomes ready. -/
theorem disabled_is_no_op_witness :
    defaultBuild.DEBUG = false ∧
    run defaultBuild 0 Debug
        [Op.begin 9600, Op.write (Value.constCharPtr "v:"), Op.write (Value.manip hex),
          Op.write (Value.int 255), Op.write (Value.manip endl), Op.printf "%d" [FormatArg.int 1]]
        (World.start none)
      = some (World.start none) :=
  ⟨rfl,
    (disabled_is_no_op defaultBuild rfl 0 Debug
      [Op.begin 9600, Op.write (Value.constCharPtr "v:"), Op.write (Value.manip hex),
        Op.write (Value.int 255), Op.write (Value.manip endl), Op.printf "%d" [FormatArg.int 1]]
      [] (World.start none)).1⟩


/-- C4: in every build and every state, an operation other than an integer insertion and a
base manipulator (text, character, floating-point, `String`, flash string, `endl`, `begin`,
the formatted writes) leaves every number base unchanged, and `begin` does return when the
port becomes ready within the fuel, or when `USBCON` is not defined or debug output is off.
In particular a floating-point insertion after `hex` leaves the number base what `hex` left
it: a hexadecimal base is still hexadecimal after it in every build, and with debug output
enabled the base after `hex` followed by a floating-point insertion is hexadecimal. -/
theorem plain_operations_keep_base (cfg : BuildConfig) (fuel : Nat) (this : Ref) (w : World) :
    (∀ (op : Op) (w1 : World), op.isPlain = true → exec cfg fuel this op w = some w1 →
        w1.objects = w.objects) ∧
    (∀ (v : Value), v.isPlain = true → (write cfg this v w).2.objects = w.objects) ∧
    (∀ (speed : Int) (k : Nat), w.SERIAL_PORT.pollsUntilReady = some k → k < fuel →
        (DebugLogger.begin cfg fuel this speed w).isSome = true) ∧
    (∀ (speed : Int), cfg.USBCON = false ∨ cfg.DEBUG = false →
        (DebugLogger.begin cfg fuel this speed w).isSome = true) ∧
    (∀ (d : Double), w.numberBase this = HEX →
        (write cfg this (Value.double d) w).2.numberBase this = HEX) ∧
    (∀ (d : Double),
        (sequential cfg this [Value.manip hex, Value.double d] w).numberBase this
          = (sequential cfg this [Value.manip hex] w).numberBase this) ∧
    (∀ (d : Double), cfg.DEBUG = true →
        (sequential cfg this [Value.manip hex, Value.double d] w).numberBase this = HEX) := by
  refine ⟨?_, ?_, ?_, ?_, ?_, ?_, ?_⟩
  · intro op w1 hop hex1
    cases op with
    | begin speed =>
      simp only [exec, DebugLogger.begin] at hex1
      split at hex1
      · split at hex1
        · cases hwait : waitForPort fuel (w.send (SerialCall.begin speed)).SERIAL_PORT with
          | none => simp [hwait] at hex1
          | some p =>
            simp [hwait] at hex1
            rw [← hex1]
        · simp at hex1
          rw [← hex1]
          rfl
      · simp at hex1
        rw [← hex1]
    | write v =>
      simp only [exec, Option.some.injEq] at hex1
      rw [← hex1]
      exact write_plain_objects cfg this v w hop
    | printf f a =>
      simp only [exec, Option.some.injEq, DebugLogger.printf] at hex1
      rw [← hex1]
      split
      · split <;> rfl
      · split
        · split <;> rfl
        · rfl
    | printf_FlashStringHelper f a =>
      simp only [exec, Option.some.injEq, DebugLogger.printf_FlashStringHelper] at hex1
      rw [← hex1]
      split
      · split <;> rfl
      · split
        · split <;> rfl
        · rfl
  · intro v hv
    exact write_plain_objects cfg this v w hv
  · intro speed k hk hlt
    simp only [DebugLogger.begin]
    split
    · split
      · have hr := waitForPort_ready k fuel (w.send (SerialCall.begin speed)).SERIAL_PORT hk hlt
        cases hwait : waitForPort fuel (w.send (SerialCall.begin speed)).SERIAL_PORT with
        | none => simp [hwait] at hr
        | some p => rfl
      · rfl
    · rfl
  · intro speed hu
    cases hu with
    | inl h =>
      simp only [DebugLogger.begin, h]
      split <;> rfl
    | inr h => simp [DebugLogger.begin, h]
  · intro d hbase
    simp only [World.numberBase] at hbase ⊢
    rw [write_plain_objects cfg this (Value.double d) w rfl]
    exact hbase
  · intro d
    simp only [sequential, World.numberBase]
    rw [write_plain_objects cfg this (Value.double d) _ rfl]
  · intro d hd
    simp [sequential, write, DebugLogger.operatorShl_LoggerManipulator,
      DebugLogger.operatorShl_double, hex, hd, World.numberBase, World.store, World.send]

/-- Witness of C4: in a debug build for a USB-backed board, `begin` on a port
that is ready at the third test returns, after `Debug << hex << 3.5` the number base is
hexadecimal, and in the default build a logger whose base is hexadecimal keeps it through
`Debug << 3.5`. -/
theorem plain_operations_keep_base_witness :
    (World.start (some 2)).SERIAL_PORT.pollsUntilReady = some 2 ∧ 2 < 5 ∧
    debugUsbBuild.DEBUG = true ∧
    (DebugLogger.begin debugUsbBuild 5 Debug 9600 (World.start (some 2))).isSome = true ∧
    (sequential debugUsbBuild Debug [Value.manip hex, Value.double ⟨35, 1⟩]
        (World.start (some 2))).numberBase Debug = 16 ∧
    ((World.start none).store Debug ⟨HEX⟩).numberBase Debug = HEX ∧
    (write defaultBuild Debug (Value.double ⟨35, 1⟩)
        ((World.start none).store Debug ⟨HEX⟩)).2.numberBase Debug = 16 :=
  ⟨rfl, by decide, rfl,
    (plain_operations_keep_base debugUsbBuild 5 Debug (World.start (some 2))).2.2.1 9600 2 rfl
      (by decide),
    (plain_operations_keep_base debugUsbBuild 5 Debug (World.start (some 2))).2.2.2.2.2.2
      ⟨35, 1⟩ rfl,
    rfl,
    (plain_operations_keep_base defaultBuild 0 Debug
      ((World.start none).store Debug ⟨HEX⟩)).2.2.2.2.1 ⟨35, 1⟩ rfl⟩

/-- C5: with debug output enabled, a floating-point insertion passes the value to the port
with no base, so what reaches the port is the same for every number base and its text is
the port's rendering of the value; with the decimal rendering, `hex` then 3.14 gives `3.14`
and 3.5, `hex`, 3.5 gives `3.503.50`. -/
theorem float_write_ignores_base (s : SinkModel) (cfg : BuildConfig) (hd : cfg.DEBUG = true)
    (this : Ref) (w : World) (d : Double) (l : DebugLogger) :
    (DebugLogger.operatorShl_double cfg this d w).2.SERIAL_PORT.calls
      = w.SERIAL_PORT.calls ++ [SerialCall.print_double d] ∧
    (DebugLogger.operatorShl_double cfg this d (w.store this l)).2.SERIAL_PORT
      = (DebugLogger.operatorShl_double cfg this d w).2.SERIAL_PORT ∧
    transmitted s (DebugLogger.operatorShl_double cfg this d w).2.SERIAL_PORT.calls
      = transmitted s w.SERIAL_PORT.calls ++ s.printDouble d ∧
    (sequential cfg this [Value.manip hex, Value.double ⟨314, 2⟩]
        w).SERIAL_PORT.calls.map (SerialCall.text specSink)
      = w.SERIAL_PORT.calls.map (SerialCall.text specSink) ++ ["3.14"] ∧
    transmitted specSink
        (sequential cfg this [Value.double ⟨35, 1⟩, Value.manip hex, Value.double ⟨35, 1⟩]
          w).SERIAL_PORT.calls
      = transmitted specSink w.SERIAL_PORT.calls ++ "3.503.50" := by
  have h1 : (DebugLogger.operatorShl_double cfg this d w).2.SERIAL_PORT.calls
      = w.SERIAL_PORT.calls ++ [SerialCall.print_double d] := by
    simp [DebugLogger.operatorShl_double, hd, World.send, HardwareSerial.record]
  have h2 : (sequential cfg this [Value.manip hex, Value.double ⟨314, 2⟩]
      w).SERIAL_PORT.calls = w.SERIAL_PORT.calls ++ [SerialCall.print_double ⟨314, 2⟩] := by
    simp [sequential, write, DebugLogger.operatorShl_LoggerManipulator,
      DebugLogger.operatorShl_double, hex, hd, World.store, World.send, HardwareSerial.record]
  have h3 : (sequential cfg this [Value.double ⟨35, 1⟩, Value.manip hex, Value.double ⟨35, 1⟩]
      w).SERIAL_PORT.calls
        = w.SERIAL_PORT.calls ++ [SerialCall.print_double ⟨35, 1⟩,
            SerialCall.print_double ⟨35, 1⟩] := by
    simp [sequential, write, DebugLogger.operatorShl_LoggerManipulator,
      DebugLogger.operatorShl_double, hex, hd, World.store, World.send, HardwareSerial.record]
  refine ⟨h1, ?_, ?_, ?_, ?_⟩
  · simp [DebugLogger.operatorShl_double, hd, World.send, World.store]
  · rw [h1, transmitted_append, transmitted_single]
    rfl
  · rw [h2, List.map_append]
    congr 1
  · rw [h3, transmitted_append]
    congr 1

/-- Witness of C5: `Debug << 3.5 << hex << 3.5` from the start state in a debug build. -/
theorem float_write_ignores_base_witness :
    debugBuild.DEBUG = true ∧
    transmitted specSink
        (sequential debugBuild Debug
          [Value.double ⟨35, 1⟩, Value.manip hex, Value.double ⟨35, 1⟩]
          (World.start none)).SERIAL_PORT.calls
      = "" ++ "3.503.50" :=
  ⟨rfl,
    (float_write_ignores_base specSink debugBuild rfl Debug (World.start none) ⟨0, 0⟩
      ⟨HEX⟩).2.2.2.2⟩


/-- C6: with debug output enabled, in every state, inserting `hex`, `dec`, `oct` or `bin`
sets the number base to 16, 10, 8 or 2 respectively, whatever it was before, and makes no
call on the port. -/
theorem base_manip_sets_radix (cfg : BuildConfig) (hd : cfg.DEBUG = true) (this : Ref)
    (w : World) :
    ((DebugLogger.operatorShl_LoggerManipulator cfg this hex w).2.numberBase this = 16 ∧
      (DebugLogger.operatorShl_LoggerManipulator cfg this hex w).2.SERIAL_PORT
        = w.SERIAL_PORT) ∧
    ((DebugLogger.operatorShl_LoggerManipulator cfg this dec w).2.numberBase this = 10 ∧
      (DebugLogger.operatorShl_LoggerManipulator cfg this dec w).2.SERIAL_PORT
        = w.SERIAL_PORT) ∧
    ((DebugLogger.operatorShl_LoggerManipulator cfg this oct w).2.numberBase this = 8 ∧
      (DebugLogger.operatorShl_LoggerManipulator cfg this oct w).2.SERIAL_PORT
        = w.SERIAL_PORT) ∧
    ((DebugLogger.operatorShl_LoggerManipulator cfg this bin w).2.numberBase this = 2 ∧
      (DebugLogger.operatorShl_LoggerManipulator cfg this bin w).2.SERIAL_PORT
        = w.SERIAL_PORT) := by
  simp [DebugLogger.operatorShl_LoggerManipulator, hex, dec, oct, bin, HEX, DEC, OCT, BIN, hd,
    World.numberBase, World.store]

/-- Witness of C6: `Debug << bin` on a logger whose pending base is hexadecimal. -/
theorem base_manip_sets_radix_witness :
    debugBuild.DEBUG = true ∧
    (DebugLogger.operatorShl_LoggerManipulator debugBuild Debug bin
        ((World.start none).store Debug ⟨HEX⟩)).2.numberBase Debug = 2 ∧
    (DebugLogger.operatorShl_LoggerManipulator debugBuild Debug bin
        ((World.start none).store Debug ⟨HEX⟩)).2.SERIAL_PORT.calls = [] :=
  ⟨rfl,
    (base_manip_sets_radix debugBuild rfl Debug
      ((World.start none).store Debug ⟨HEX⟩)).2.2.2.1,
    congrArg HardwareSerial.calls
      (base_manip_sets_radix debugBuild rfl Debug
        ((World.start none).store Debug ⟨HEX⟩)).2.2.2.2⟩

/-- C7: with debug output enabled, in every state, inserting `endl` makes exactly one call
on the port, `println`, so exactly one line terminator is transmitted, and leaves every
number base as it was: a pending base stays pending. -/
theorem endl_one_terminator_keeps_base (s : SinkModel) (cfg : BuildConfig)
    (hd : cfg.DEBUG = true) (this : Ref) (w : World) :
    (DebugLogger.operatorShl_LoggerManipulator cfg this endl w).2.SERIAL_PORT.calls
      = w.SERIAL_PORT.calls ++ [SerialCall.println] ∧
    transmitted s (DebugLogger.operatorShl_LoggerManipulator cfg this endl w).2.SERIAL_PORT.calls
      = transmitted s w.SERIAL_PORT.calls ++ s.lineTerminator ∧
    (DebugLogger.operatorShl_LoggerManipulator cfg this endl w).2.objects = w.objects ∧
    (DebugLogger.operatorShl_LoggerManipulator cfg this endl w).2.numberBase this
      = w.numberBase this := by
  have h1 : (DebugLogger.operatorShl_LoggerManipulator cfg this endl w).2.SERIAL_PORT.calls
      = w.SERIAL_PORT.calls ++ [SerialCall.println] := by
    simp [DebugLogger.operatorShl_LoggerManipulator, endl, hd, World.send,
      HardwareSerial.record]
  refine ⟨h1, ?_, ?_, ?_⟩
  · rw [h1, transmitted_append, transmitted_single]
    rfl
  · simp [DebugLogger.operatorShl_LoggerManipulator, endl, hd, World.send]
  · simp [DebugLogger.operatorShl_LoggerManipulator, endl, hd, World.send, World.numberBase]

/-- Witness of C7: `Debug << endl` on a logger whose pending base is hexadecimal. -/
theorem endl_one_terminator_keeps_base_witness :
    debugBuild.DEBUG = true ∧
    (DebugLogger.operatorShl_LoggerManipulator debugBuild Debug endl
        ((World.start none).store Debug ⟨HEX⟩)).2.SERIAL_PORT.calls = [SerialCall.println] ∧
    (DebugLogger.operatorShl_LoggerManipulator debugBuild Debug endl
        ((World.start none).store Debug ⟨HEX⟩)).2.numberBase Debug = 16 :=
  ⟨rfl,
    (endl_one_terminator_keeps_base specSink debugBuild rfl Debug
      ((World.start none).store Debug ⟨HEX⟩)).1,
    (endl_one_terminator_keeps_base specSink debugBuild rfl Debug
      ((World.start none).store Debug ⟨HEX⟩)).2.2.2⟩

/-- C8: in every build, every insertion (each value type and each manipulator) returns the
reference of the logger it was called on, so a chain of insertions returns that logger and
leaves exactly the state that the same insertions leave as separate statements on that
logger: the same calls on the port and the same number base; so it is for the chain
`"x="`, 10, `endl`. -/
theorem chain_is_sequential (cfg : BuildConfig) (this : Ref) (vs : List Value) (w : World) :
    (∀ (v : Value) (w0 : World), (write cfg this v w0).1 = this) ∧
    (chain cfg this vs w).1 = this ∧
    (chain cfg this vs w).2 = sequential cfg this vs w ∧
    (chain cfg this vs w).2.SERIAL_PORT = (sequential cfg this vs w).SERIAL_PORT ∧
    (chain cfg this vs w).2.numberBase this = (sequential cfg this vs w).numberBase this ∧
    (chain cfg this [Value.constCharPtr "x=", Value.int 10, Value.manip endl] w).2
      = (write cfg this (Value.manip endl)
          (write cfg this (Value.int 10)
            (write cfg this (Value.constCharPtr "x=") w).2).2).2 := by
  have key : ∀ (xs : List Value) (w0 : World),
      chain cfg this xs w0 = (this, sequential cfg this xs w0) := by
    intro xs
    induction xs with
    | nil => intro w0; rfl
    | cons x xs ih =>
      intro w0
      simp only [chain, sequential]
      rw [write_returns_this cfg this x w0]
      exact ih _
  refine ⟨fun v w0 => write_returns_this cfg this v w0, ?_, ?_, ?_, ?_, ?_⟩
  · rw [key]
  · rw [key]
  · rw [key]
  · rw [key]
  · rw [key]
    rfl

/-- C9: with debug output enabled and the logger in its start state, the sequence `"v:"`,
`hex`, 255, `endl` makes the port receive the text `v:`, the integer 255 with base 16 and
one `println`; with the renderings of the spec the text transmitted is exactly `v:ff\n`. -/
theorem end_to_end_example (cfg : BuildConfig) (hd : cfg.DEBUG = true)
    (ready : Option Nat) :
    (chain cfg Debug
        [Value.constCharPtr "v:", Value.manip hex, Value.int 255, Value.manip endl]
        (World.start ready)).2.SERIAL_PORT.calls
      = [SerialCall.print_constCharPtr "v:", SerialCall.print_int 255 16, SerialCall.println] ∧
    transmitted specSink
        (chain cfg Debug
          [Value.constCharPtr "v:", Value.manip hex, Value.int 255, Value.manip endl]
          (World.start ready)).2.SERIAL_PORT.calls
      = "v:ff\n" := by
  have h1 : (chain cfg Debug
      [Value.constCharPtr "v:", Value.manip hex, Value.int 255, Value.manip endl]
      (World.start ready)).2.SERIAL_PORT.calls
        = [SerialCall.print_constCharPtr "v:", SerialCall.print_int 255 16,
            SerialCall.println] := by
    simp [chain, write, DebugLogger.operatorShl_constCharPtr,
      DebugLogger.operatorShl_LoggerManipulator, DebugLogger.operatorShl_int, hex, endl, HEX,
      hd, World.start, World.send, World.store, HardwareSerial.record]
  refine ⟨h1, ?_⟩
  rw [h1]
  decide

/-- Witness of C9: the debug build and a port that is ready at once. -/
theorem end_to_end_example_witness :
    debugBuild.DEBUG = true ∧
    transmitted specSink
        (chain debugBuild Debug
          [Value.constCharPtr "v:", Value.manip hex, Value.int 255, Value.manip endl]
          (World.start (some 0))).2.SERIAL_PORT.calls
      = "v:ff\n" :=
  ⟨rfl, (end_to_end_example debugBuild rfl (some 0)).2⟩

/-- C10: with debug output enabled, after any sequence of manipulators ending in the base
manipulator `b`, followed by any sequence of text, character, floating-point, `String`,
flash-string and `endl` insertions, the number base is still that of `b`; the next integer
insertion, through any of the four overloads, reaches the port with that base and resets
the number base, so that an integer inserted right after it reaches the port with base
decimal. -/
theorem pending_base_until_integer (cfg : BuildConfig) (hd : cfg.DEBUG = true) (this : Ref)
    (w : World) (mods : List LoggerManipulator) (b : LoggerManipulator) (r : Int)
    (others : List Value) (i j : Value) (ci cj : SerialCall)
    (hr : b.radix = some r)
    (hothers : ∀ v ∈ others, v.isPlain = true)
    (hi : i.integerCall r = some ci) (hj : j.integerCall DEC = some cj) :
    (sequential cfg this (mods.map Value.manip ++ [Value.manip b] ++ others) w).numberBase this
      = r ∧
    (sequential cfg this (mods.map Value.manip ++ [Value.manip b] ++ others ++ [i])
        w).SERIAL_PORT.calls
      = (sequential cfg this (mods.map Value.manip ++ [Value.manip b] ++ others)
          w).SERIAL_PORT.calls ++ [ci] ∧
    (sequential cfg this (mods.map Value.manip ++ [Value.manip b] ++ others ++ [i])
        w).numberBase this = DEC ∧
    (sequential cfg this (mods.map Value.manip ++ [Value.manip b] ++ others ++ [i, j])
        w).SERIAL_PORT.calls
      = (sequential cfg this (mods.map Value.manip ++ [Value.manip b] ++ others)
          w).SERIAL_PORT.calls ++ [ci, cj] := by
  have hbase : (sequential cfg this (mods.map Value.manip ++ [Value.manip b] ++ others)
      w).numberBase this = r := by
    rw [sequential_append, sequential_append]
    simp only [World.numberBase]
    rw [sequential_plain_objects cfg this others _ hothers]
    exact (manip_base_sets cfg hd this b r hr _).1
  have hint : ∀ (w0 : World) (base : Int) (x : Value) (c : SerialCall),
      w0.numberBase this = base → x.integerCall base = some c →
      (write cfg this x w0).2.SERIAL_PORT.calls = w0.SERIAL_PORT.calls ++ [c] ∧
        (write cfg this x w0).2.numberBase this = DEC := by
    intro w0 base x c hb hx
    cases x <;>
      simp_all [Value.integerCall, write, DebugLogger.operatorShl_int,
        DebugLogger.operatorShl_unsignedInt, DebugLogger.operatorShl_long,
        DebugLogger.operatorShl_unsignedLong, World.send, World.store, World.numberBase,
        HardwareSerial.record]
  have h1 := hint _ r i ci hbase hi
  refine ⟨hbase, ?_, ?_, ?_⟩
  · rw [sequential_append _ _ _ [i]]
    exact h1.1
  · rw [sequential_append _ _ _ [i]]
    exact h1.2
  · rw [sequential_append _ _ _ [i, j]]
    have h2 := hint _ DEC j cj h1.2 hj
    simp only [sequential]
    rw [h2.1, h1.1]
    simp

/-- Witness of C10: `hex`, `bin`, `"x"`, 3.5, `endl`, 5, 5 in a debug build: the first 5
reaches the port with base 2, the second with base 10. -/
theorem pending_base_until_integer_witness :
    debugBuild.DEBUG = true ∧
    (sequential debugBuild Debug
        ([hex].map Value.manip ++ [Value.manip bin] ++
          [Value.constCharPtr "x", Value.double ⟨35, 1⟩, Value.manip endl] ++
          [Value.int 5, Value.int 5])
        (World.start none)).SERIAL_PORT.calls
      = (sequential debugBuild Debug
          ([hex].map Value.manip ++ [Value.manip bin] ++
            [Value.constCharPtr "x", Value.double ⟨35, 1⟩, Value.manip endl])
          (World.start none)).SERIAL_PORT.calls
        ++ [SerialCall.print_int 5 2, SerialCall.print_int 5 10] :=
  ⟨rfl,
    (pending_base_until_integer debugBuild rfl Debug (World.start none) [hex] bin 2
      [Value.constCharPtr "x", Value.double ⟨35, 1⟩, Value.manip endl]
      (Value.int 5) (Value.int 5) (SerialCall.print_int 5 2) (SerialCall.print_int 5 10)
      rfl (by decide) rfl rfl).2.2.2⟩


end DebugLog
